import Mathlib

/-!
Verification of the persistence endpoint of the lolaTool repository
(file src/app/api/data/route.ts): a JSON-file backed record service
exposing List (GET), Create (POST), Update (PUT) and Delete (DELETE)
over a single document of article records.

The embedding below translates the TypeScript route handlers into pure
Lean functions.  The on-disk document is passed in explicitly and the
resulting on-disk document is returned, together with the HTTP-level
response and a count of store reads and write attempts performed by the
handler.  A write attempt may fail (fs.writeFileSync throwing); this is
modelled by the boolean parameter writeOk: when it is false the write
returns false and the file keeps its previous content.
-/

/-- The non-id fields of an article record, as in the Article interface
of route.ts.  At runtime the handlers never validate the body, and POST
receives a Partial Article, so every field may be absent; absence is
modelled with Option (and an absent array field stays absent, it is not
defaulted to an empty list). -/
structure ArticleFields where
  authors : Option String := none
  doi : Option String := none
  title : Option String := none
  keywords : Option (List String) := none
  models : Option (List String) := none
  techniques : Option (List String) := none
  results : Option (List String) := none
  notes : Option String := none
deriving Repr, DecidableEq

/-- An article record as stored in the document: a numeric id plus the
remaining fields.  Ids are JSON numbers restricted to integers, modelled
as Int. -/
structure Article where
  id : Int
  fields : ArticleFields
deriving Repr, DecidableEq

/-- The DataFile interface of route.ts: the whole persisted document. -/
structure DataFile where
  articles : List Article
deriving Repr, DecidableEq

/-- The empty document `\x7b articles: [] \x7d` returned when the backing file
cannot be read or parsed. -/
def emptyDataFile : DataFile := ⟨[]⟩

/-- Outcome of fs.readFileSync on the backing file: either the raw file
content, or a thrown error (file absent or unreadable). -/
inductive ReadResult where
  | ok (content : String)
  | ioError
deriving Repr, DecidableEq

/-- readDataFile of route.ts: try to read and JSON.parse the backing
file; any thrown error (read failure or parse failure) is caught and the
empty document is returned.  The JSON parser is passed in abstractly as
a function returning none when JSON.parse would throw. -/
def readDataFile (read : ReadResult) (parse : String → Option DataFile) : DataFile :=
  match read with
  | .ok content =>
    match parse content with
    | some d => d
    | none => emptyDataFile
  | .ioError => emptyDataFile

/-- The JSON responses produced by the route handlers (payload messages
omitted). -/
inductive ApiResponse where
  | dataOk (d : DataFile)
  | createOk (a : Article)
  | updateOk (a : Article)
  | deleteOk
  | badRequest
  | notFound
  | writeFailed
deriving Repr, DecidableEq

/-- The HTTP status attached to each response in route.ts. -/
def ApiResponse.status : ApiResponse → Nat
  | .dataOk _ => 200
  | .createOk _ => 200
  | .updateOk _ => 200
  | .deleteOk => 200
  | .badRequest => 400
  | .notFound => 404
  | .writeFailed => 500

/-- Result of running one handler: the on-disk document afterwards, the
response sent to the client, and how many store reads and write
attempts the handler performed. -/
structure OpResult where
  doc : DataFile
  resp : ApiResponse
  reads : Nat
  writes : Nat
deriving Repr, DecidableEq

/-- The ids of the articles of a document, in document order. -/
def idsOf (d : DataFile) : List Int := d.articles.map Article.id

/-- The reduce of POST in route.ts: the largest id among the articles,
computed by folding `article.id > max ? article.id : max` from 0. -/
def maxArticleId (articles : List Article) : Int :=
  articles.foldl (fun mx a => if a.id > mx then a.id else mx) 0

/-- The request body of POST: a Partial Article, so possibly carrying an
id field of its own (which the handler overwrites). -/
structure CreateInput where
  id : Option Int := none
  fields : ArticleFields := {}
deriving Repr, DecidableEq

/-- GET of route.ts: read the document and return it verbatim. -/
def GET (doc : DataFile) : OpResult :=
  ⟨doc, .dataOk doc, 1, 0⟩

/-- POST of route.ts: read the document, assign the new article the id
maxArticleId + 1 (overwriting any id supplied in the body), append it,
and write the document back.  On write failure the previous file
content is kept and a 500 response is returned. -/
def POST (doc : DataFile) (input : CreateInput) (writeOk : Bool) : OpResult :=
  let newArticle : Article := { id := maxArticleId doc.articles + 1, fields := input.fields }
  let newDoc : DataFile := ⟨doc.articles ++ [newArticle]⟩
  if writeOk then
    ⟨newDoc, .createOk newArticle, 1, 1⟩
  else
    ⟨doc, .writeFailed, 1, 1⟩

/-- Array.prototype.findIndex, with none standing for the -1 result. -/
def findIndexJS (p : α → Bool) : List α → Option Nat
  | [] => none
  | a :: l => if p a then some 0 else (findIndexJS p l).map (· + 1)

/-- PUT of route.ts: read the document, find the first article whose id
equals the id of the body; if none, answer 404 without writing,
otherwise replace that entry wholesale with the body and write the
document back. -/
def PUT (doc : DataFile) (input : Article) (writeOk : Bool) : OpResult :=
  match findIndexJS (fun a => a.id == input.id) doc.articles with
  | none => ⟨doc, .notFound, 1, 0⟩
  | some i =>
    let newDoc : DataFile := ⟨doc.articles.set i input⟩
    if writeOk then
      ⟨newDoc, .updateOk input, 1, 1⟩
    else
      ⟨doc, .writeFailed, 1, 1⟩

/-- A JavaScript number that is either NaN or an integer. -/
inductive JSNumber where
  | nan
  | int (n : Int)
deriving Repr, DecidableEq

/-- Value of a longest leading run of decimal digits; none when the
first character is not a digit (parseInt then yields NaN). -/
def leadingDigits (cs : List Char) : Option Nat :=
  let ds := cs.takeWhile Char.isDigit
  if ds.isEmpty then none
  else some (ds.foldl (fun acc c => 10 * acc + (c.toNat - 48)) 0)

/-- JavaScript parseInt restricted to base 10: skip leading whitespace,
accept an optional sign, then the longest run of decimal digits; NaN if
no digit follows.  (The hexadecimal 0x auto-detection of parseInt is
out of scope; no input considered here uses it.) -/
def parseIntJS (s : String) : JSNumber :=
  let cs := s.data.dropWhile (fun c => c = ' ' ∨ c = '\t' ∨ c = '\n' ∨ c = '\r')
  match cs with
  | '-' :: rest =>
    match leadingDigits rest with
    | some n => .int (-(n : Int))
    | none => .nan
  | '+' :: rest =>
    match leadingDigits rest with
    | some n => .int (n : Int)
    | none => .nan
  | _ =>
    match leadingDigits cs with
    | some n => .int (n : Int)
    | none => .nan

/-- JavaScript truthiness of a number: NaN and 0 are falsy. -/
def JSNumber.truthy : JSNumber → Bool
  | .nan => false
  | .int n => n != 0

/-- The expression `url.searchParams.get("id") || "0"`: an absent
parameter (null) and the empty string are both falsy, giving "0". -/
def idParamOrZero (idParam : Option String) : String :=
  match idParam with
  | none => "0"
  | some s => if s = "" then "0" else s

/-- DELETE of route.ts: parse the id query parameter with parseInt; if
the result is falsy (0 or NaN) answer 400 before touching the store.
Otherwise read the document, drop every article whose id equals the
parsed id; if nothing was dropped answer 404 without writing, otherwise
write the filtered document back. -/
def DELETE (doc : DataFile) (idParam : Option String) (writeOk : Bool) : OpResult :=
  let idNum := parseIntJS (idParamOrZero idParam)
  if idNum.truthy then
    match idNum with
    | .nan => ⟨doc, .badRequest, 0, 0⟩
    | .int n =>
      let filtered := doc.articles.filter (fun a => a.id != n)
      if filtered.length = doc.articles.length then
        ⟨doc, .notFound, 1, 0⟩
      else
        if writeOk then
          ⟨⟨filtered⟩, .deleteOk, 1, 1⟩
        else
          ⟨doc, .writeFailed, 1, 1⟩
  else
    ⟨doc, .badRequest, 0, 0⟩

/-- Modelled from the spec: the id-assignment formula as the spec words
it, "(max id among existing articles, or 0) + 1" — the maximum of the
existing ids, or 0 when there are none, plus one.  Compared against the
fold actually used by POST. -/
def specNewId (d : DataFile) : Int :=
  (match idsOf d with
   | [] => 0
   | x :: xs => xs.foldl max x) + 1

/-! ### Helper lemmas about the fold computing the largest id -/

lemma ifMax_eq_max (mx v : Int) : (if v > mx then v else mx) = max mx v := by
  rcases le_or_lt v mx with h | h
  · rw [if_neg (not_lt.mpr h), max_eq_left h]
  · rw [if_pos h, max_eq_right h.le]

lemma foldl_articles_max (l : List Article) (init : Int) :
    l.foldl (fun mx a => if a.id > mx then a.id else mx) init
      = (l.map Article.id).foldl max init := by
  rw [List.foldl_map]
  induction l generalizing init with
  | nil => rfl
  | cons a t ih => simp only [List.foldl_cons, ifMax_eq_max, ih]

lemma le_foldl_max (l : List Int) (init : Int) : init ≤ l.foldl max init := by
  induction l generalizing init with
  | nil => exact le_refl _
  | cons x xs ih => exact le_trans (le_max_left init x) (ih (max init x))

lemma mem_le_foldl_max {l : List Int} {v : Int} (hv : v ∈ l) (init : Int) :
    v ≤ l.foldl max init := by
  induction l generalizing init with
  | nil => cases hv
  | cons x xs ih =>
    rcases List.mem_cons.mp hv with h | h
    · subst h
      exact le_trans (le_max_right init v) (le_foldl_max xs _)
    · exact ih h _

lemma id_le_maxArticleId {l : List Article} {a : Article} (ha : a ∈ l) :
    a.id ≤ maxArticleId l := by
  rw [maxArticleId, foldl_articles_max]
  exact mem_le_foldl_max (List.mem_map_of_mem _ ha) 0

lemma maxArticleId_succ_notMem {d : DataFile} :
    maxArticleId d.articles + 1 ∉ idsOf d := by
  intro hmem
  obtain ⟨a, ha, hid⟩ := List.mem_map.mp hmem
  have := id_le_maxArticleId ha
  omega

lemma maxArticleId_eq_specRule {d : DataFile} (h : ∀ a ∈ d.articles, 0 ≤ a.id) :
    maxArticleId d.articles + 1 = specNewId d := by
  unfold specNewId idsOf
  rcases harts : d.articles with _ | ⟨a, l⟩
  · rfl
  · have ha : 0 ≤ a.id := h a (by rw [harts]; exact List.mem_cons_self a l)
    rw [maxArticleId, foldl_articles_max]
    simp only [List.map_cons, List.foldl_cons]
    rw [max_eq_right ha]

/-- C1: for every Document (whose ids are, as the data model guarantees
for service-assigned ids, non-negative), Create assigns the new record
the id (max id among existing articles, or 0) + 1; creating into an
empty Document yields id 1, a sequence of Creates from empty yields ids
1, 2, 3 in call order, and creating when existing ids are 2, 5, 3
yields id 6. -/
theorem create_id_assignment
    (doc : DataFile) (input : CreateInput)
    (hnonneg : ∀ a ∈ doc.articles, 0 ≤ a.id) :
    (POST doc input true).resp = .createOk ⟨specNewId doc, input.fields⟩ ∧
    (POST doc input true).doc.articles = doc.articles ++ [⟨specNewId doc, input.fields⟩] ∧
    (POST emptyDataFile input true).resp = .createOk ⟨1, input.fields⟩ ∧
    idsOf (POST (POST (POST emptyDataFile input true).doc input true).doc input true).doc
      = [1, 2, 3] ∧
    (POST ⟨[⟨2, {}⟩, ⟨5, {}⟩, ⟨3, {}⟩]⟩ input true).resp = .createOk ⟨6, input.fields⟩ := by
  refine ⟨?_, ?_, ?_, ?_, ?_⟩
  · rw [← maxArticleId_eq_specRule hnonneg]; rfl
  · rw [← maxArticleId_eq_specRule hnonneg]; rfl
  · rfl
  · norm_num [POST, maxArticleId, idsOf, emptyDataFile]
  · norm_num [POST, maxArticleId]

theorem create_id_assignment_witness :
    (∀ a ∈ (⟨[⟨2, {}⟩]⟩ : DataFile).articles, 0 ≤ a.id) ∧
    (POST ⟨[⟨2, {}⟩]⟩ ⟨some 99, {}⟩ true).resp = .createOk ⟨specNewId ⟨[⟨2, {}⟩]⟩, {}⟩ :=
  ⟨by decide, (create_id_assignment ⟨[⟨2, {}⟩]⟩ ⟨some 99, {}⟩ (by decide)).1⟩

/-- C2: Load never fails; whatever the state of the backing file
(absent or unreadable, unparseable, or well-formed), readDataFile
returns a Document: the parsed one when the file parses, and the empty
Document in every failure case. -/
theorem load_never_fails (read : ReadResult) (parse : String → Option DataFile) :
    (∀ c d, read = .ok c → parse c = some d → readDataFile read parse = d) ∧
    (read = .ioError → readDataFile read parse = emptyDataFile) ∧
    (∀ c, read = .ok c → parse c = none → readDataFile read parse = emptyDataFile) := by
  refine ⟨?_, ?_, ?_⟩
  · intro c d hr hp; subst hr; simp [readDataFile, hp]
  · intro hr; subst hr; rfl
  · intro c hr hp; subst hr; simp [readDataFile, hp]

/-- A concrete stand-in for JSON.parse: succeeds only on the string
"ok". -/
def parseWitness (s : String) : Option DataFile :=
  if s = "ok" then some ⟨[⟨1, {}⟩]⟩ else none

theorem load_never_fails_witness :
    readDataFile (.ok "ok") parseWitness = ⟨[⟨1, {}⟩]⟩ ∧
    readDataFile .ioError parseWitness = emptyDataFile ∧
    readDataFile (.ok "bad") parseWitness = emptyDataFile :=
  ⟨(load_never_fails (.ok "ok") parseWitness).1 "ok" ⟨[⟨1, {}⟩]⟩ rfl (by decide),
   (load_never_fails .ioError parseWitness).2.1 rfl,
   (load_never_fails (.ok "bad") parseWitness).2.2 "bad" rfl (by decide)⟩

/-! ### Helper lemmas about findIndexJS, List.set and List.filter -/

lemma findIndexJS_eq_none {p : α → Bool} {l : List α}
    (h : ∀ a ∈ l, p a = false) : findIndexJS p l = none := by
  induction l with
  | nil => rfl
  | cons a t ih =>
    simp [findIndexJS, h a (List.mem_cons_self a t),
      ih fun b hb => h b (List.mem_cons_of_mem a hb)]

lemma findIndexJS_some_spec {p : α → Bool} {l : List α} {i : Nat}
    (h : findIndexJS p l = some i) : ∃ a, l[i]? = some a ∧ p a = true := by
  induction l generalizing i with
  | nil => simp [findIndexJS] at h
  | cons b t ih =>
    by_cases hb : p b = true
    · simp [findIndexJS, hb] at h
      subst h
      exact ⟨b, by simp, hb⟩
    · simp [findIndexJS, hb] at h
      obtain ⟨j, hj, hji⟩ := h
      obtain ⟨a, ha, hpa⟩ := ih hj
      subst hji
      exact ⟨a, by simpa using ha, hpa⟩

lemma findIndexJS_some_of_mem (p : α → Bool) {l : List α} {a : α}
    (ha : a ∈ l) (hp : p a = true) : ∃ i, findIndexJS p l = some i := by
  induction l with
  | nil => cases ha
  | cons b t ih =>
    by_cases hb : p b = true
    · exact ⟨0, by simp [findIndexJS, hb]⟩
    · rcases List.mem_cons.mp ha with h | h
      · subst h; exact absurd hp hb
      · obtain ⟨j, hj⟩ := ih h
        exact ⟨j + 1, by simp [findIndexJS, hb, hj]⟩

lemma set_of_getElem? {l : List α} {i : Nat} {x : α}
    (h : l[i]? = some x) : l.set i x = l := by
  induction l generalizing i with
  | nil => simp at h
  | cons a t ih =>
    cases i with
    | zero =>
      simp only [List.getElem?_cons_zero, Option.some.injEq] at h
      subst h
      rfl
    | succ j =>
      simp only [List.getElem?_cons_succ] at h
      simp [List.set, ih h]

lemma findIndexJS_of_ids_nodup {l : List Article} {t : Int} {i : Nat} {a0 : Article}
    (hnd : (l.map Article.id).Nodup) (h0 : l[i]? = some a0) (ht : a0.id = t) :
    findIndexJS (fun a => a.id == t) l = some i := by
  induction l generalizing i with
  | nil => simp at h0
  | cons b u ih =>
    cases i with
    | zero =>
      simp only [List.getElem?_cons_zero, Option.some.injEq] at h0
      subst h0
      simp [findIndexJS, ht]
    | succ j =>
      simp only [List.getElem?_cons_succ] at h0
      obtain ⟨hlt, heq⟩ := List.getElem?_eq_some_iff.mp h0
      have hmem : a0 ∈ u := heq ▸ List.getElem_mem hlt
      rw [List.map_cons, List.nodup_cons] at hnd
      have hb : (b.id == t) = false := by
        simp only [beq_eq_false_iff_ne, ne_eq]
        intro hbt
        exact hnd.1 (hbt ▸ ht ▸ List.mem_map_of_mem Article.id hmem)
      simp [findIndexJS, hb, ih hnd.2 h0]

lemma nodup_ids_filter {doc : DataFile} (hnd : (idsOf doc).Nodup) (q : Article → Bool) :
    ((doc.articles.filter q).map Article.id).Nodup :=
  ((List.filter_sublist doc.articles).map Article.id).nodup hnd

/-- C3: id uniqueness is an invariant; starting from a Document with
pairwise distinct ids, each of the four handlers leaves the on-disk
document with pairwise distinct ids, whatever the inputs and whether or
not the write succeeds. -/
theorem id_uniqueness_invariant
    (doc : DataFile) (hnd : (idsOf doc).Nodup)
    (input : CreateInput) (art : Article) (idParam : Option String) (writeOk : Bool) :
    (idsOf (GET doc).doc).Nodup ∧
    (idsOf (POST doc input writeOk).doc).Nodup ∧
    (idsOf (PUT doc art writeOk).doc).Nodup ∧
    (idsOf (DELETE doc idParam writeOk).doc).Nodup := by
  refine ⟨hnd, ?_, ?_, ?_⟩
  · cases writeOk with
    | false => exact hnd
    | true =>
      show ((doc.articles ++
        [({ id := maxArticleId doc.articles + 1, fields := input.fields } : Article)]).map
          Article.id).Nodup
      rw [List.map_append]
      refine List.nodup_append.mpr ⟨hnd, List.nodup_singleton _, ?_⟩
      intro x hx hx1
      have hxeq : x = maxArticleId doc.articles + 1 := by simpa using hx1
      exact maxArticleId_succ_notMem (hxeq ▸ hx)
  · rcases hf : findIndexJS (fun a => a.id == art.id) doc.articles with _ | i
    · simpa [PUT, hf] using hnd
    · cases writeOk with
      | false => simpa [PUT, hf] using hnd
      | true =>
        obtain ⟨a0, h0, hpa⟩ := findIndexJS_some_spec hf
        have hid : a0.id = art.id := by simpa using hpa
        have hset : ((doc.articles.set i art).map Article.id).Nodup := by
          rw [List.map_set, ← hid, set_of_getElem? (by simp [h0])]
          exact hnd
        simpa [PUT, hf, idsOf] using hset
  · unfold DELETE
    rcases hp : parseIntJS (idParamOrZero idParam) with _ | n
    · exact hnd
    · by_cases hn : n = 0
      · simp [JSNumber.truthy, hn]
        exact hnd
      · simp only [JSNumber.truthy, bne_iff_ne, ne_eq, hn, not_false_eq_true, if_true]
        by_cases hlen :
            (doc.articles.filter (fun a => a.id != n)).length = doc.articles.length
        · simp [hlen]; exact hnd
        · cases writeOk with
          | false => simp [hlen]; exact hnd
          | true =>
            simp only [hlen, if_false, if_true]
            exact nodup_ids_filter hnd _

theorem id_uniqueness_invariant_witness :
    (idsOf ((⟨[⟨1, {}⟩, ⟨2, {}⟩]⟩ : DataFile))).Nodup ∧
    (idsOf (POST ⟨[⟨1, {}⟩, ⟨2, {}⟩]⟩ ⟨none, {}⟩ true).doc).Nodup :=
  ⟨by decide,
   (id_uniqueness_invariant ⟨[⟨1, {}⟩, ⟨2, {}⟩]⟩ (by decide)
      ⟨none, {}⟩ ⟨1, {}⟩ none true).2.1⟩

/-! ### DELETE guard lemmas -/

lemma DELETE_of_falsy (doc : DataFile) (idParam : Option String) (writeOk : Bool)
    (h : (parseIntJS (idParamOrZero idParam)).truthy = false) :
    DELETE doc idParam writeOk = ⟨doc, .badRequest, 0, 0⟩ := by
  unfold DELETE
  rcases hp : parseIntJS (idParamOrZero idParam) with _ | n
  · rfl
  · rw [hp] at h
    simp [h]

lemma DELETE_reads_of_truthy (doc : DataFile) (idParam : Option String) (writeOk : Bool)
    (h : (parseIntJS (idParamOrZero idParam)).truthy = true) :
    (DELETE doc idParam writeOk).reads = 1 := by
  unfold DELETE
  rcases hp : parseIntJS (idParamOrZero idParam) with _ | n
  · rw [hp] at h
    simp [JSNumber.truthy] at h
  · rw [hp] at h
    simp only [h, if_true]
    by_cases hlen :
        (doc.articles.filter (fun a => a.id != n)).length = doc.articles.length
    · simp [hlen]
    · cases writeOk <;> simp [hlen]

/-- C4 counterexample: the id query parameter "-1" is not a positive
integer, yet DELETE does not answer 400; it reads the store, deletes
the article with id -1 and answers 200. -/
theorem delete_negative_id_not_rejected :
    (DELETE ⟨[⟨-1, {}⟩]⟩ (some "-1") true).resp = .deleteOk ∧
    (DELETE ⟨[⟨-1, {}⟩]⟩ (some "-1") true).resp.status ≠ 400 ∧
    (DELETE ⟨[⟨-1, {}⟩]⟩ (some "-1") true).reads = 1 ∧
    (DELETE ⟨[⟨-1, {}⟩]⟩ (some "-1") true).doc = emptyDataFile := by
  decide

/-- C4 amended: DELETE answers 400, with no store read or write and
the document untouched, exactly when the id query parameter parses
(via parseInt, defaulting an absent or empty parameter to "0") to 0 or
NaN; in particular a zero or absent id is rejected, but a negative id
is not. -/
theorem delete_bad_request_guard
    (doc : DataFile) (idParam : Option String) (writeOk : Bool) :
    (DELETE doc idParam writeOk = ⟨doc, .badRequest, 0, 0⟩
      ↔ (parseIntJS (idParamOrZero idParam)).truthy = false) ∧
    DELETE doc none writeOk = ⟨doc, .badRequest, 0, 0⟩ ∧
    DELETE doc (some "0") writeOk = ⟨doc, .badRequest, 0, 0⟩ ∧
    DELETE doc (some "") writeOk = ⟨doc, .badRequest, 0, 0⟩ := by
  refine ⟨⟨?_, DELETE_of_falsy doc idParam writeOk⟩,
    DELETE_of_falsy doc none writeOk (by decide),
    DELETE_of_falsy doc (some "0") writeOk (by decide),
    DELETE_of_falsy doc (some "") writeOk (by decide)⟩
  intro heq
  by_contra htr
  rw [Bool.not_eq_false] at htr
  have := DELETE_reads_of_truthy doc idParam writeOk htr
  rw [heq] at this
  simp at this

theorem delete_bad_request_guard_witness :
    DELETE ⟨[⟨1, {}⟩]⟩ none true = ⟨⟨[⟨1, {}⟩]⟩, .badRequest, 0, 0⟩ :=
  (delete_bad_request_guard ⟨[⟨1, {}⟩]⟩ none true).2.1

/-- C5: Update with an id matching no article answers 404, performs no
write attempt, and leaves the document unchanged. -/
theorem update_not_found
    (doc : DataFile) (art : Article) (writeOk : Bool)
    (h : ∀ a ∈ doc.articles, a.id ≠ art.id) :
    PUT doc art writeOk = ⟨doc, .notFound, 1, 0⟩ ∧
    (PUT doc art writeOk).resp.status = 404 ∧
    (PUT doc art writeOk).writes = 0 := by
  have hf : findIndexJS (fun a => a.id == art.id) doc.articles = none :=
    findIndexJS_eq_none fun a ha => by simp [h a ha]
  refine ⟨?_, ?_, ?_⟩ <;> simp [PUT, hf, ApiResponse.status]

theorem update_not_found_witness :
    PUT ⟨[⟨1, {}⟩]⟩ ⟨2, {}⟩ true = ⟨⟨[⟨1, {}⟩]⟩, .notFound, 1, 0⟩ :=
  (update_not_found ⟨[⟨1, {}⟩]⟩ ⟨2, {}⟩ true (by decide)).1

/-- Passing a string that parseInt maps to an integer through the
defaulting of an absent id parameter changes nothing. -/
lemma parseInt_idParam_some {s : String} {n : Int} (hs : parseIntJS s = .int n) :
    parseIntJS (idParamOrZero (some s)) = .int n := by
  have hne : s ≠ "" := by
    intro h
    rw [h] at hs
    have hnan : parseIntJS "" = JSNumber.nan := by decide
    rw [hnan] at hs
    exact JSNumber.noConfusion hs
  simpa [idParamOrZero, hne] using hs

/-- C6: when the ids are pairwise distinct (the documented invariant),
deleting an id held by some article removes exactly that article,
preserving the relative order of all the others, and answers 200;
deleting an id held by no article answers 404 with no write and leaves
the document unchanged. -/
theorem delete_removes_exactly
    (doc : DataFile) (s : String) (n : Int)
    (hs : parseIntJS s = .int n) (hn : n ≠ 0) (hnd : (idsOf doc).Nodup) :
    (∀ l1 a l2, doc.articles = l1 ++ a :: l2 → a.id = n →
        (DELETE doc (some s) true).doc.articles = l1 ++ l2 ∧
        (DELETE doc (some s) true).resp = .deleteOk) ∧
    ((∀ a ∈ doc.articles, a.id ≠ n) →
        DELETE doc (some s) true = ⟨doc, .notFound, 1, 0⟩) := by
  have hs' := parseInt_idParam_some hs
  constructor
  · intro l1 a l2 hsplit hid
    have hmid : (Article.id a :: (l1.map Article.id ++ l2.map Article.id)).Nodup := by
      have hnd2 := hnd
      rw [idsOf, hsplit, List.map_append, List.map_cons] at hnd2
      exact List.nodup_middle.mp hnd2
    have hni : a.id ∉ l1.map Article.id ++ l2.map Article.id := (List.nodup_cons.mp hmid).1
    have h1 : ∀ b ∈ l1, (b.id != n) = true := by
      intro b hb
      simp only [bne_iff_ne, ne_eq]
      intro hbn
      have : a.id ∈ l1.map Article.id := by
        rw [hid, ← hbn]
        exact List.mem_map_of_mem Article.id hb
      exact hni (List.mem_append.mpr (Or.inl this))
    have h2 : ∀ b ∈ l2, (b.id != n) = true := by
      intro b hb
      simp only [bne_iff_ne, ne_eq]
      intro hbn
      have : a.id ∈ l2.map Article.id := by
        rw [hid, ← hbn]
        exact List.mem_map_of_mem Article.id hb
      exact hni (List.mem_append.mpr (Or.inr this))
    have ha : (a.id != n) = false := by simp [hid]
    have hfil : doc.articles.filter (fun b => b.id != n) = l1 ++ l2 := by
      rw [hsplit, List.filter_append, List.filter_cons]
      rw [List.filter_eq_self.mpr h1, List.filter_eq_self.mpr h2, ha]
      simp
    have hlen : l1.length + l2.length ≠ doc.articles.length := by
      rw [hsplit]
      simp only [List.length_append, List.length_cons]
      omega
    have hres : DELETE doc (some s) true = ⟨⟨l1 ++ l2⟩, .deleteOk, 1, 1⟩ := by
      unfold DELETE
      simp [hs', JSNumber.truthy, hn, hfil, hlen]
    exact ⟨by rw [hres], by rw [hres]⟩
  · intro hall
    have hfil : doc.articles.filter (fun b => b.id != n) = doc.articles :=
      List.filter_eq_self.mpr fun b hb => by simp [hall b hb]
    unfold DELETE
    simp [hs', JSNumber.truthy, hn, hfil]

theorem delete_removes_exactly_witness :
    (DELETE ⟨[⟨1, {}⟩, ⟨2, {}⟩, ⟨3, {}⟩]⟩ (some "2") true).doc.articles = [⟨1, {}⟩, ⟨3, {}⟩] ∧
    (DELETE ⟨[⟨1, {}⟩, ⟨2, {}⟩, ⟨3, {}⟩]⟩ (some "2") true).resp = .deleteOk :=
  (delete_removes_exactly ⟨[⟨1, {}⟩, ⟨2, {}⟩, ⟨3, {}⟩]⟩ "2" 2
      (by decide) (by decide) (by decide)).1
    [⟨1, {}⟩] ⟨2, {}⟩ [⟨3, {}⟩] rfl rfl

/-- C7: when the ids are pairwise distinct (the documented invariant)
and the article at index i carries the id of the submitted body, PUT
replaces the entry at i wholesale with the body and leaves every other
entry at its position with its value; the length of the sequence is
unchanged. -/
theorem update_replaces_at_index
    (doc : DataFile) (art a0 : Article) (i : Nat)
    (hnd : (idsOf doc).Nodup)
    (h0 : doc.articles[i]? = some a0)
    (hid : a0.id = art.id) :
    (PUT doc art true).resp = .updateOk art ∧
    (PUT doc art true).doc.articles = doc.articles.set i art ∧
    (PUT doc art true).doc.articles[i]? = some art ∧
    (∀ j, j ≠ i → (PUT doc art true).doc.articles[j]? = doc.articles[j]?) ∧
    (PUT doc art true).doc.articles.length = doc.articles.length := by
  have hf : findIndexJS (fun a => a.id == art.id) doc.articles = some i :=
    findIndexJS_of_ids_nodup (by simpa [idsOf] using hnd) h0 hid
  have hres : PUT doc art true = ⟨⟨doc.articles.set i art⟩, .updateOk art, 1, 1⟩ := by
    simp [PUT, hf]
  have hlt : i < doc.articles.length := (List.getElem?_eq_some_iff.mp h0).1
  refine ⟨by rw [hres], by rw [hres], ?_, ?_, ?_⟩
  · rw [hres]
    exact List.getElem?_set_self hlt
  · intro j hj
    rw [hres]
    exact List.getElem?_set_ne (Ne.symm hj)
  · rw [hres]
    simp

theorem update_replaces_at_index_witness :
    (PUT ⟨[⟨1, {}⟩, ⟨2, {}⟩]⟩ ⟨2, { title := some "t" }⟩ true).resp
      = .updateOk ⟨2, { title := some "t" }⟩ ∧
    (PUT ⟨[⟨1, {}⟩, ⟨2, {}⟩]⟩ ⟨2, { title := some "t" }⟩ true).doc.articles
      = [⟨1, {}⟩, ⟨2, { title := some "t" }⟩] := by
  have h := update_replaces_at_index ⟨[⟨1, {}⟩, ⟨2, {}⟩]⟩
    ⟨2, { title := some "t" }⟩ ⟨2, {}⟩ 1 (by decide) (by decide) rfl
  exact ⟨h.1, by rw [h.2.1]; rfl⟩

/-- C8: when the write fails, each mutating handler answers 500 and the
on-disk file keeps the content it had before the attempt (for PUT and
DELETE, provided the handler got far enough to attempt the write at
all: a matching article exists and, for DELETE, the id parses to a
non-zero integer). -/
theorem write_failure_preserves_file
    (doc : DataFile) (input : CreateInput) (art : Article) (s : String) (n : Int)
    (hart : ∃ a ∈ doc.articles, a.id = art.id)
    (hs : parseIntJS s = .int n) (hn : n ≠ 0)
    (hdel : ∃ a ∈ doc.articles, a.id = n) :
    POST doc input false = ⟨doc, .writeFailed, 1, 1⟩ ∧
    PUT doc art false = ⟨doc, .writeFailed, 1, 1⟩ ∧
    DELETE doc (some s) false = ⟨doc, .writeFailed, 1, 1⟩ ∧
    ApiResponse.writeFailed.status = 500 := by
  refine ⟨rfl, ?_, ?_, rfl⟩
  · obtain ⟨a, ha, haid⟩ := hart
    obtain ⟨i, hi⟩ := findIndexJS_some_of_mem (fun x => x.id == art.id) ha (by simp [haid])
    simp [PUT, hi]
  · obtain ⟨a, ha, haid⟩ := hdel
    have hs' := parseInt_idParam_some hs
    have hlt : (doc.articles.filter (fun b => b.id != n)).length < doc.articles.length :=
      List.length_filter_lt_length_iff_exists.mpr ⟨a, ha, by simp [haid]⟩
    have hlen : ¬ ((doc.articles.filter (fun b => b.id != n)).length = doc.articles.length) := by
      omega
    unfold DELETE
    simp [hs', JSNumber.truthy, hn, hlen]

theorem write_failure_preserves_file_witness :
    POST ⟨[⟨1, {}⟩]⟩ ⟨none, {}⟩ false = ⟨⟨[⟨1, {}⟩]⟩, .writeFailed, 1, 1⟩ ∧
    PUT ⟨[⟨1, {}⟩]⟩ ⟨1, {}⟩ false = ⟨⟨[⟨1, {}⟩]⟩, .writeFailed, 1, 1⟩ ∧
    DELETE ⟨[⟨1, {}⟩]⟩ (some "1") false = ⟨⟨[⟨1, {}⟩]⟩, .writeFailed, 1, 1⟩ := by
  have h := write_failure_preserves_file ⟨[⟨1, {}⟩]⟩ ⟨none, {}⟩ ⟨1, {}⟩ "1" 1
    (by decide) (by decide) (by decide) (by decide)
  exact ⟨h.1, h.2.1, h.2.2.1⟩

/-- C9: after a successful Create, List returns a document whose
articles are exactly the pre-existing ones followed by the created
record, which carries the service-assigned id and the submitted fields
intact. -/
theorem list_after_create_round_trip (doc : DataFile) (input : CreateInput) :
    ∃ created : Article,
      (POST doc input true).resp = .createOk created ∧
      created.fields = input.fields ∧
      (GET (POST doc input true).doc).resp = .dataOk ⟨doc.articles ++ [created]⟩ :=
  ⟨⟨maxArticleId doc.articles + 1, input.fields⟩, rfl, rfl, rfl⟩

/-- C10: the id field of a Create body is ignored: the outcome with an
id supplied is the very outcome with none supplied, and the stored and
returned article always carries the id computed from the existing
articles (equal, on documents with the non-negative service-assigned
ids, to the spec formula (max existing id, or 0) + 1). -/
theorem create_id_not_client_controlled
    (doc : DataFile) (f : ArticleFields) (k : Int) (writeOk : Bool) :
    POST doc ⟨some k, f⟩ writeOk = POST doc ⟨none, f⟩ writeOk ∧
    (POST doc ⟨some k, f⟩ true).resp = .createOk ⟨maxArticleId doc.articles + 1, f⟩ ∧
    (POST doc ⟨some k, f⟩ true).doc.articles
      = doc.articles ++ [⟨maxArticleId doc.articles + 1, f⟩] ∧
    ((∀ a ∈ doc.articles, 0 ≤ a.id) → maxArticleId doc.articles + 1 = specNewId doc) :=
  ⟨rfl, rfl, rfl, maxArticleId_eq_specRule⟩

theorem create_id_not_client_controlled_witness :
    (POST emptyDataFile ⟨some 42, {}⟩ true).resp = .createOk ⟨1, {}⟩ ∧
    maxArticleId emptyDataFile.articles + 1 = specNewId emptyDataFile := by
  have h := create_id_not_client_controlled emptyDataFile {} 42 true
  exact ⟨h.2.1, h.2.2.2 (by decide)⟩
